import Mathlib

/-!
Shallow embedding of the data-engineer-take-home repository: the batch
ingestion pipeline (`src/pipeline/flow.py`), the store adapters
(`src/utils/db.py`) and the recommendation API (`src/api/main.py`).

Embedding vectors are modelled as lists of integers (the embedding model is
an external black box `String → List Int`; only emptiness and L2 ordering of
vectors matter to the code under verification).  Each of the five stores is
modelled by its contents; store operations from the source become pure state
transformers, and the order of clear/insert operations is recorded in an
explicit event trace.  Logging and network transport are out of scope.
-/

namespace TakeHome

/-- An embedding vector (`model.encode(...).tolist()`), black-box output of
the sentence-transformers model. -/
abbrev Vec := List Int

/-- A raw input record as read from `data/sample_conversations.json`:
an untyped JSON object, each expected field possibly absent. -/
structure RawRecord where
  message_id : Option String
  user_id : Option String
  campaign_id : Option String
  timestamp : Option String
  intent : Option String
  message : Option String
deriving Repr, DecidableEq

/-- Model of `src/db/schemas.py` `Conversation`: the Pydantic model, with the
optional `embedding` field the pipeline fills in after validation. -/
structure Conversation where
  message_id : String
  user_id : String
  campaign_id : String
  timestamp : String
  intent : String
  message : String
  embedding : Option Vec
deriving Repr, DecidableEq

/-- Pydantic validation `Conversation(**item)`: succeeds exactly when every
required field is present; `embedding` starts out absent. -/
def validateRecord (r : RawRecord) : Option Conversation :=
  match r.message_id, r.user_id, r.campaign_id, r.timestamp, r.intent, r.message with
  | some mid, some uid, some cid, some ts, some it, some msg =>
      some ⟨mid, uid, cid, ts, it, msg, none⟩
  | _, _, _, _, _, _ => none

/-- Model of `src/pipeline/flow.py` `transform_and_validate`: validate each record,
embed its message, drop records that fail validation or whose embedding
comes back empty (the anomaly check), keep the rest in order. -/
def transform_and_validate (embed : String → Vec) (data : List RawRecord) :
    List Conversation :=
  data.filterMap (fun item =>
    match validateRecord item with
    | none => none
    | some convo =>
        let e := embed convo.message
        if e = [] then none
        else some { convo with embedding := some e })

/-- A row of the Milvus `conversations` collection:
(message_id primary key, user_id, embedding). -/
structure SimilarityEntry where
  message_id : String
  user_id : String
  embedding : Vec
deriving Repr, DecidableEq

/-- The Neo4j graph: User/Campaign/Intent nodes plus
`PARTICIPATED_IN {timestamp}` and `EXPRESSED {timestamp}` relationships.
Edges are triples (user_id, campaign_id or intent, timestamp). -/
structure GraphStore where
  users : List String
  campaigns : List String
  intents : List String
  participated : List (String × String × String)
  expressed : List (String × String × String)
deriving Repr, DecidableEq

/-- A row of the SQLite `user_analytics` table. -/
structure AnalyticsRow where
  user_id : String
  campaign_id : String
  engagement_count : Nat
deriving Repr, DecidableEq

/-- An item of a recommendation list as served and cached by the API. -/
structure RecItem where
  campaign_id : String
  ranking_score : Nat
  reason : String
deriving Repr, DecidableEq

/-- Contents of the five stores.  `doc` is the Mongo `conversations`
collection, `vec` the Milvus collection, `graph` the Neo4j database,
`analytics` the SQLite `user_analytics` table, `cache` the Redis keyspace
(key, JSON-decoded value). -/
structure Stores where
  doc : List Conversation
  vec : List SimilarityEntry
  graph : GraphStore
  analytics : List AnalyticsRow
  cache : List (String × List RecItem)
deriving Repr, DecidableEq

/-- Cypher `MERGE` of a single node or relationship: insert only if not
already present (idempotent upsert). -/
def mergeElem {α : Type} [DecidableEq α] (x : α) (l : List α) : List α :=
  if x ∈ l then l else l ++ [x]

/-- The Cypher statement run per record in `load_to_dbs`: MERGE the three
nodes and the two relationships for one conversation. -/
def mergeRecord (g : GraphStore) (d : Conversation) : GraphStore :=
  { users := mergeElem d.user_id g.users,
    campaigns := mergeElem d.campaign_id g.campaigns,
    intents := mergeElem d.intent g.intents,
    participated := mergeElem (d.user_id, d.campaign_id, d.timestamp) g.participated,
    expressed := mergeElem (d.user_id, d.intent, d.timestamp) g.expressed }

/-- The empty graph, result of `MATCH (n) DETACH DELETE n`. -/
def emptyGraph : GraphStore := ⟨[], [], [], [], []⟩

/-- The distinct (user_id, campaign_id) pairs of a batch, as produced by the
pandas `groupby(['user_id', 'campaign_id'])` key set (row order of the
aggregate is irrelevant to every property below). -/
def pairsOf (data : List Conversation) : List (String × String) :=
  (data.map (fun d => (d.user_id, d.campaign_id))).dedup

/-- Number of records of the batch sharing a (user_id, campaign_id) pair. -/
def countPair (data : List Conversation) (u c : String) : Nat :=
  data.countP (fun d => d.user_id == u && d.campaign_id == c)

/-- The pandas `groupby(['user_id','campaign_id']).size()` aggregate
written to `user_analytics`: one row per occurring pair, counting its
occurrences. -/
def analyticsAggregate (data : List Conversation) : List AnalyticsRow :=
  (pairsOf data).map (fun p => ⟨p.1, p.2, countPair data p.1 p.2⟩)

/-- One store mutation performed during the load stage, with its payload. -/
inductive StoreOp where
  | clearDoc : StoreOp
  | insertDoc : List Conversation → StoreOp
  | clearVec : StoreOp
  | insertVec : List SimilarityEntry → StoreOp
  | clearGraph : StoreOp
  | insertGraph : List Conversation → StoreOp
  | clearAnalytics : StoreOp
  | insertAnalytics : List AnalyticsRow → StoreOp
deriving Repr, DecidableEq

/-- Effect of one load-stage operation on the stores. -/
def applyOp (s : Stores) (op : StoreOp) : Stores :=
  match op with
  | .clearDoc => { s with doc := [] }
  | .insertDoc recs => { s with doc := s.doc ++ recs }
  | .clearVec => { s with vec := [] }
  | .insertVec es => { s with vec := s.vec ++ es }
  | .clearGraph => { s with graph := emptyGraph }
  | .insertGraph recs => { s with graph := recs.foldl mergeRecord s.graph }
  | .clearAnalytics => { s with analytics := [] }
  | .insertAnalytics rows => { s with analytics := s.analytics ++ rows }

/-- The Mongo documents inserted by `load_to_dbs`
(`model_dump(exclude={'embedding'})`). -/
def mongoDocs (data : List Conversation) : List Conversation :=
  data.map (fun d => { d with embedding := none })

/-- The Milvus column data inserted by `load_to_dbs`, one entry per record. -/
def milvusEntries (data : List Conversation) : List SimilarityEntry :=
  data.map (fun d => ⟨d.message_id, d.user_id, d.embedding.getD []⟩)

/-- The sequence of store mutations performed by `load_to_dbs`, in source
order.  `get_milvus_connection()` (called while acquiring clients, before
any other store is touched) drops the existing Milvus collection and
re-creates it empty — that drop IS the vector store's delete-all, and it
happens before Mongo's `delete_many({})`.  Then: Mongo clear+insert, Milvus
insert (+flush), Neo4j clear+MERGE loop, SQLite delete+append. -/
def loadOps (data : List Conversation) : List StoreOp :=
  [.clearVec,
   .clearDoc, .insertDoc (mongoDocs data),
   .insertVec (milvusEntries data),
   .clearGraph, .insertGraph data,
   .clearAnalytics, .insertAnalytics (analyticsAggregate data)]

/-- Model of `src/pipeline/flow.py` `load_to_dbs`: run the load-stage operations and
report the resulting stores together with the operation trace. -/
def load_to_dbs (data : List Conversation) (s : Stores) : Stores × List StoreOp :=
  ((loadOps data).foldl applyOp s, loadOps data)

/-- Model of `src/pipeline/flow.py` `main_data_pipeline`.  The extract stage is
`none` when the input file is missing or unreadable (the task returns `[]`
after logging) and `some data` otherwise; an empty extract or an empty
transform result halts the run before any store is touched. -/
def main_data_pipeline (embed : String → Vec) (raw : Option (List RawRecord))
    (s : Stores) : Stores × List StoreOp :=
  match raw with
  | none => (s, [])
  | some data =>
    if data = [] then (s, [])
    else
      let transformed := transform_and_validate embed data
      if transformed = [] then (s, [])
      else load_to_dbs transformed s

/-! ## Recommendation API (`src/api/main.py`) -/

/-- Insertion step of a descending insertion sort keyed by an integer, the
model of a store-side `ORDER BY ... DESC` (ties in store-defined order). -/
def insertDescBy {α : Type} (key : α → Int) (x : α) : List α → List α
  | [] => [x]
  | y :: ys => if key y < key x then x :: y :: ys else y :: insertDescBy key x ys

/-- Descending sort by an integer key. -/
def sortDescBy {α : Type} (key : α → Int) : List α → List α
  | [] => []
  | x :: xs => insertDescBy key x (sortDescBy key xs)

/-- Squared L2 distance between two embedding vectors (the Milvus `L2`
metric; all stored vectors share the configured dimension). -/
def sqDist (a b : Vec) : Int :=
  ((a.zip b).map (fun p => (p.1 - p.2) ^ 2)).sum

/-- Environment of a request: the startup-loaded embedding model `app_state["model"]`, and whether the Redis
client raises on use (an unreachable cache store). -/
structure ApiEnv where
  embed : String → Vec
  redisFails : Bool

/-- Mongo `conversations.find_one({"user_id": user_id})`: some matching
document, modelled as the first one. -/
def find_one (doc : List Conversation) (uid : String) : Option Conversation :=
  doc.find? (fun d => d.user_id == uid)

/-- Model of `src/api/main.py` `get_user_query_vector`: fetch one record for the
user from Mongo and embed its message; `none` when the user has no record. -/
def get_user_query_vector (embed : String → Vec) (doc : List Conversation)
    (uid : String) : Option Vec :=
  match find_one doc uid with
  | none => none
  | some r => some (embed r.message)

/-- Model of `src/api/main.py` `search_similar_users`: Milvus top-`k` nearest entries
by L2 distance to the query vector, keeping each hit's user_id, then
`list(set(...))` deduplication (set semantics; order immaterial below). -/
def search_similar_users (vec : List SimilarityEntry) (q : Vec) (k : Nat) :
    List String :=
  (((sortDescBy (fun e => -(sqDist e.embedding q)) vec).take k).map
    (fun e => e.user_id)).dedup

/-- Model of `src/api/main.py` `fetch_campaigns_for_users`: distinct campaign ids
connected to any of the given users by a PARTICIPATED_IN edge. -/
def fetch_campaigns_for_users (g : GraphStore) (user_ids : List String) :
    List String :=
  ((g.participated.filter (fun e => decide (e.1 ∈ user_ids))).map
    (fun e => e.2.1)).dedup

/-- Sum `SUM(engagement_count)` over the `user_analytics` rows of one campaign. -/
def sumEngagement (rows : List AnalyticsRow) (c : String) : Nat :=
  ((rows.filter (fun r => r.campaign_id == c)).map
    (fun r => r.engagement_count)).sum

/-- A row of the ranking query's result set. -/
structure RankedCampaign where
  campaign_id : String
  ranking_score : Nat
deriving Repr, DecidableEq

/-- Model of `src/api/main.py` `rank_campaigns_by_engagement`: the SQL query
`SELECT campaign_id, SUM(engagement_count) FROM user_analytics WHERE
campaign_id IN (...) GROUP BY 1 ORDER BY 2 DESC`.  Groups are the distinct
campaign ids among the table rows passing the filter (a candidate id with
no analytics row yields no output row); the result is ordered descending by
the summed engagement. -/
def rank_campaigns_by_engagement (rows : List AnalyticsRow)
    (cids : List String) : List RankedCampaign :=
  let present :=
    ((rows.filter (fun r => decide (r.campaign_id ∈ cids))).map
      (fun r => r.campaign_id)).dedup
  sortDescBy (fun rc => (rc.ranking_score : Int))
    (present.map (fun c => ⟨c, sumEngagement rows c⟩))

/-- The fixed reason string attached to every computed recommendation. -/
def fixedReason : String := "Recommended based on users with similar interests."

/-- Redis `get` of a cache key, JSON-decoded: `none` is a miss.  (The code
only ever caches JSON arrays, and `json.dumps` of any list is a non-empty,
hence truthy, string, so key presence is exactly a hit.) -/
def cacheLookup (cache : List (String × List RecItem)) (key : String) :
    Option (List RecItem) :=
  (cache.find? (fun kv => kv.1 == key)).map (fun kv => kv.2)

/-- Redis `set`: overwrite the value under a key (TTL out of scope). -/
def cacheSet (cache : List (String × List RecItem)) (key : String)
    (v : List RecItem) : List (String × List RecItem) :=
  (cache.filter (fun kv => !(kv.1 == key))) ++ [(key, v)]

/-- The endpoint's outcome: a JSON body, or the 404 HTTPException. -/
structure RecResponse where
  user_id : String
  recommendations : List RecItem
  retrieval_source : String
deriving Repr, DecidableEq

inductive RecResult where
  | ok : RecResponse → RecResult
  | notFound : String → RecResult
deriving Repr, DecidableEq

/-- The read/write stages a request touches, for the early-exit claims. -/
inductive Stage where
  | cacheRead | docRead | vecSearch | graphQuery | analyticsQuery | cacheWrite
deriving Repr, DecidableEq

/-- The cache-miss path of `get_recommendations` (everything after the
cache check): seed vector (404 when absent or falsy, i.e. the empty list),
Milvus search, Neo4j expansion, SQLite ranking, reason annotation, cache
write (skipped silently when Redis raises — the exception is logged and
swallowed). -/
def computeRecs (env : ApiEnv) (s : Stores) (uid : String) :
    RecResult × Stores × List Stage :=
  match get_user_query_vector env.embed s.doc uid with
  | none => (.notFound uid, s, [.cacheRead, .docRead])
  | some q =>
    if q = [] then (.notFound uid, s, [.cacheRead, .docRead])
    else
      let sims := search_similar_users s.vec q 5
      if sims = [] then
        (.ok ⟨uid, [], "computed"⟩, s, [.cacheRead, .docRead, .vecSearch])
      else
        let cids := fetch_campaigns_for_users s.graph sims
        if cids = [] then
          (.ok ⟨uid, [], "computed"⟩, s,
           [.cacheRead, .docRead, .vecSearch, .graphQuery])
        else
          let final := (rank_campaigns_by_engagement s.analytics cids).map
            (fun rc => ⟨rc.campaign_id, rc.ranking_score, fixedReason⟩)
          let cache2 := if env.redisFails then s.cache
            else cacheSet s.cache ("rec:" ++ uid) final
          (.ok ⟨uid, final, "computed"⟩, { s with cache := cache2 },
           [.cacheRead, .docRead, .vecSearch, .graphQuery,
            .analyticsQuery, .cacheWrite])

/-- Model of `src/api/main.py` `get_recommendations`: cache-aside.  A Redis read
failure is caught and treated as a miss; a hit returns the cached list with
source "cache"; a miss runs the compute path. -/
def get_recommendations (env : ApiEnv) (s : Stores) (uid : String) :
    RecResult × Stores × List Stage :=
  match (if env.redisFails then none else cacheLookup s.cache ("rec:" ++ uid)) with
  | some recs => (.ok ⟨uid, recs, "cache"⟩, s, [.cacheRead])
  | none => computeRecs env s uid

/-- Startup model: `src/api/main.py` `lifespan` at startup calls `get_milvus_connection()`
(`src/utils/db.py`), which drops the existing `conversations` collection
and re-creates it empty: API startup erases the vector store's contents and
leaves every other store as it was. -/
def lifespanStartup (s : Stores) : Stores := { s with vec := [] }

/-! ## Concrete records and store states used as inputs below -/

/-- An embedding model returning the message length, never empty. -/
def embedLen : String → Vec := fun m => [(m.length : Int)]

/-- An embedding model whose vectors are always empty (the anomaly case). -/
def embedNil : String → Vec := fun _ => []

def rawA : RawRecord :=
  ⟨some "m1", some "userA", some "campX", some "t1", some "buy", some "hello"⟩

def rawA2 : RawRecord :=
  ⟨some "m2", some "userA", some "campX", some "t2", some "buy", some "again"⟩

def rawB : RawRecord :=
  ⟨some "m3", some "userB", some "campX", some "t3", some "ask", some "hey"⟩

/-- A raw record missing its message_id: fails Pydantic validation. -/
def rawBad : RawRecord :=
  ⟨none, some "userA", some "campX", some "t1", some "buy", some "hello"⟩

def convoA : Conversation :=
  ⟨"m1", "userA", "campX", "t1", "buy", "hello", some [5]⟩

def emptyStores : Stores := ⟨[], [], emptyGraph, [], []⟩

/-- Stores holding one ingested record, vector entry included. -/
def storesWithVec : Stores :=
  ⟨[convoA], [⟨"m1", "userA", [5]⟩], emptyGraph, [], []⟩

def cachedItem : RecItem := ⟨"campY", 7, "stale reason"⟩

/-- Stores where user u1 is absent from the document store but a stale
cache entry for u1 survives (reachable: a run cached u1, then ingestion
replaced the stores with a batch not containing u1, within the TTL). -/
def staleCacheStores : Stores :=
  ⟨[], [], emptyGraph, [], [("rec:u1", [cachedItem])]⟩

/-- Stores where userA has a document but the vector store is empty, and a
stale cache entry for userA exists. -/
def staleCacheStoresA : Stores :=
  ⟨[convoA], [], emptyGraph, [], [("rec:userA", [cachedItem])]⟩

/-- Stores where userA has a document, the vector store is empty, and the
cache is empty. -/
def docOnlyStores : Stores :=
  ⟨[convoA], [], emptyGraph, [], []⟩

def sampleRows : List AnalyticsRow :=
  [⟨"userA", "campX", 2⟩, ⟨"userB", "campX", 1⟩, ⟨"userA", "campY", 4⟩]

/-- Predicate picking out the vector store's delete-all in a trace. -/
def isClearVec : StoreOp → Bool
  | .clearVec => true
  | _ => false

/-- Predicate picking out the document store's delete-all in a trace. -/
def isClearDoc : StoreOp → Bool
  | .clearDoc => true
  | _ => false

/-! ## Helper lemmas -/

theorem mem_insertDescBy {α : Type} {key : α → Int} {x a : α} {l : List α} :
    a ∈ insertDescBy key x l ↔ a = x ∨ a ∈ l := by
  induction l with
  | nil => simp [insertDescBy]
  | cons y ys ih =>
    simp only [insertDescBy]
    split
    · simp [List.mem_cons]
    · simp only [List.mem_cons, ih]
      tauto

theorem pairwise_insertDescBy {α : Type} {key : α → Int} {x : α} {l : List α}
    (h : l.Pairwise (fun a b => key b ≤ key a)) :
    (insertDescBy key x l).Pairwise (fun a b => key b ≤ key a) := by
  induction l with
  | nil => simp [insertDescBy]
  | cons y ys ih =>
    rw [List.pairwise_cons] at h
    obtain ⟨hy, hys⟩ := h
    simp only [insertDescBy]
    split
    · rename_i hlt
      rw [List.pairwise_cons]
      refine ⟨fun b hb => ?_, List.pairwise_cons.mpr ⟨hy, hys⟩⟩
      rcases List.mem_cons.mp hb with rfl | hb
      · exact le_of_lt hlt
      · exact le_trans (hy b hb) (le_of_lt hlt)
    · rename_i hge
      rw [List.pairwise_cons]
      refine ⟨fun b hb => ?_, ih hys⟩
      rcases mem_insertDescBy.mp hb with rfl | hb
      · exact le_of_not_lt hge
      · exact hy b hb

theorem pairwise_sortDescBy {α : Type} (key : α → Int) (l : List α) :
    (sortDescBy key l).Pairwise (fun a b => key b ≤ key a) := by
  induction l with
  | nil => exact List.Pairwise.nil
  | cons x xs ih => exact pairwise_insertDescBy ih

theorem mem_sortDescBy {α : Type} {key : α → Int} {a : α} {l : List α} :
    a ∈ sortDescBy key l ↔ a ∈ l := by
  induction l with
  | nil => exact Iff.rfl
  | cons x xs ih => simp [sortDescBy, mem_insertDescBy, ih]

theorem rank_sorted (rows : List AnalyticsRow) (cids : List String) :
    (rank_campaigns_by_engagement rows cids).Pairwise
      (fun a b => b.ranking_score ≤ a.ranking_score) := by
  unfold rank_campaigns_by_engagement
  exact (pairwise_sortDescBy _ _).imp (fun hab => by exact_mod_cast hab)

theorem rank_score_eq {rows : List AnalyticsRow} {cids : List String}
    {x : RankedCampaign} (hx : x ∈ rank_campaigns_by_engagement rows cids) :
    x.ranking_score = sumEngagement rows x.campaign_id := by
  unfold rank_campaigns_by_engagement at hx
  rw [mem_sortDescBy] at hx
  obtain ⟨c, _, rfl⟩ := List.mem_map.mp hx
  rfl

theorem mem_pairsOf {data : List Conversation} {u c : String} :
    (u, c) ∈ pairsOf data ↔ 0 < countPair data u c := by
  unfold pairsOf countPair
  rw [List.mem_dedup, List.countP_pos_iff]
  constructor
  · intro h
    obtain ⟨d, hd, heq⟩ := List.mem_map.mp h
    injection heq with h1 h2
    exact ⟨d, hd, by simp [h1, h2]⟩
  · rintro ⟨d, hd, hp⟩
    simp only [Bool.and_eq_true, beq_iff_eq] at hp
    exact List.mem_map.mpr ⟨d, hd, by simp [hp.1, hp.2]⟩

theorem mem_analyticsAggregate {data : List Conversation} {row : AnalyticsRow} :
    row ∈ analyticsAggregate data ↔
      (row.user_id, row.campaign_id) ∈ pairsOf data ∧
        row.engagement_count = countPair data row.user_id row.campaign_id := by
  unfold analyticsAggregate
  constructor
  · intro h
    obtain ⟨p, hp, rfl⟩ := List.mem_map.mp h
    exact ⟨hp, rfl⟩
  · rintro ⟨hp, hc⟩
    refine List.mem_map.mpr ⟨(row.user_id, row.campaign_id), hp, ?_⟩
    cases row with
    | mk u c n => simp only at hc ⊢; rw [hc]

theorem load_fields (data : List Conversation) (s : Stores) :
    (load_to_dbs data s).1 =
      ⟨mongoDocs data, milvusEntries data, data.foldl mergeRecord emptyGraph,
       analyticsAggregate data, s.cache⟩ := rfl

theorem get_recommendations_fail (env : ApiEnv) (s : Stores) (uid : String)
    (h : env.redisFails = true) :
    get_recommendations env s uid = computeRecs env s uid := by
  unfold get_recommendations
  rw [h]
  rfl

theorem get_recommendations_miss (env : ApiEnv) (s : Stores) (uid : String)
    (h : env.redisFails = false)
    (hc : cacheLookup s.cache ("rec:" ++ uid) = none) :
    get_recommendations env s uid = computeRecs env s uid := by
  unfold get_recommendations
  rw [h, if_neg (by simp), hc]

theorem get_recommendations_hit (env : ApiEnv) (s : Stores) (uid : String)
    (v : List RecItem) (h : env.redisFails = false)
    (hc : cacheLookup s.cache ("rec:" ++ uid) = some v) :
    get_recommendations env s uid = (.ok ⟨uid, v, "cache"⟩, s, [.cacheRead]) := by
  unfold get_recommendations
  rw [h, if_neg (by simp), hc]

theorem computeRecs_absent (env : ApiEnv) (s : Stores) (uid : String)
    (hd : find_one s.doc uid = none) :
    computeRecs env s uid = (.notFound uid, s, [.cacheRead, .docRead]) := by
  unfold computeRecs get_user_query_vector
  rw [hd]

theorem computeRecs_empty_embed (env : ApiEnv) (s : Stores) (uid : String)
    (r : Conversation) (hr : find_one s.doc uid = some r)
    (he : env.embed r.message = []) :
    computeRecs env s uid = (.notFound uid, s, [.cacheRead, .docRead]) := by
  unfold computeRecs get_user_query_vector
  rw [hr]
  simp [he]

theorem computeRecs_no_sims (env : ApiEnv) (s : Stores) (uid : String)
    (r : Conversation) (hr : find_one s.doc uid = some r)
    (he : env.embed r.message ≠ [])
    (hs : search_similar_users s.vec (env.embed r.message) 5 = []) :
    computeRecs env s uid =
      (.ok ⟨uid, [], "computed"⟩, s, [.cacheRead, .docRead, .vecSearch]) := by
  unfold computeRecs get_user_query_vector
  rw [hr]
  simp [he, hs]

theorem computeRecs_no_cids (env : ApiEnv) (s : Stores) (uid : String)
    (r : Conversation) (hr : find_one s.doc uid = some r)
    (he : env.embed r.message ≠ [])
    (hs : search_similar_users s.vec (env.embed r.message) 5 ≠ [])
    (hc : fetch_campaigns_for_users s.graph
      (search_similar_users s.vec (env.embed r.message) 5) = []) :
    computeRecs env s uid =
      (.ok ⟨uid, [], "computed"⟩, s,
       [.cacheRead, .docRead, .vecSearch, .graphQuery]) := by
  unfold computeRecs get_user_query_vector
  rw [hr]
  simp [he, hs, hc]

theorem computeRecs_full (env : ApiEnv) (s : Stores) (uid : String)
    (r : Conversation) (hr : find_one s.doc uid = some r)
    (he : env.embed r.message ≠ [])
    (hs : search_similar_users s.vec (env.embed r.message) 5 ≠ [])
    (hc : fetch_campaigns_for_users s.graph
      (search_similar_users s.vec (env.embed r.message) 5) ≠ []) :
    computeRecs env s uid =
      (.ok ⟨uid,
        (rank_campaigns_by_engagement s.analytics
          (fetch_campaigns_for_users s.graph
            (search_similar_users s.vec (env.embed r.message) 5))).map
          (fun rc => ⟨rc.campaign_id, rc.ranking_score, fixedReason⟩),
        "computed"⟩,
       { s with cache := (if env.redisFails then s.cache
          else cacheSet s.cache ("rec:" ++ uid)
            ((rank_campaigns_by_engagement s.analytics
              (fetch_campaigns_for_users s.graph
                (search_similar_users s.vec (env.embed r.message) 5))).map
              (fun rc => ⟨rc.campaign_id, rc.ranking_score, fixedReason⟩))) },
       [.cacheRead, .docRead, .vecSearch, .graphQuery,
        .analyticsQuery, .cacheWrite]) := by
  unfold computeRecs get_user_query_vector
  rw [hr]
  simp [he, hs, hc]

theorem computeRecs_cache_only (env : ApiEnv) (s : Stores) (uid : String) :
    ∃ c, (computeRecs env s uid).2.1 = { s with cache := c } := by
  rcases hd : find_one s.doc uid with _ | r
  · exact ⟨s.cache, by rw [computeRecs_absent env s uid hd]⟩
  · by_cases he : env.embed r.message = []
    · exact ⟨s.cache, by rw [computeRecs_empty_embed env s uid r hd he]⟩
    · by_cases hs : search_similar_users s.vec (env.embed r.message) 5 = []
      · exact ⟨s.cache, by rw [computeRecs_no_sims env s uid r hd he hs]⟩
      · by_cases hc : fetch_campaigns_for_users s.graph
            (search_similar_users s.vec (env.embed r.message) 5) = []
        · exact ⟨s.cache, by rw [computeRecs_no_cids env s uid r hd he hs hc]⟩
        · exact ⟨_, by rw [computeRecs_full env s uid r hd he hs hc]⟩

theorem get_recommendations_cache_only (env : ApiEnv) (s : Stores) (uid : String) :
    ∃ c, (get_recommendations env s uid).2.1 = { s with cache := c } := by
  rcases hrf : env.redisFails with _ | _
  · rcases hc : cacheLookup s.cache ("rec:" ++ uid) with _ | v
    · rw [get_recommendations_miss env s uid hrf hc]
      exact computeRecs_cache_only env s uid
    · exact ⟨s.cache, by rw [get_recommendations_hit env s uid v hrf hc]⟩
  · rw [get_recommendations_fail env s uid hrf]
    exact computeRecs_cache_only env s uid

/-! ## Claims -/

/-- C1: the claim that the Ingestion Pipeline is the sole writer of the
four persistent stores fails on the code.  Serving a request does leave the
document, vector, graph and analytics stores unchanged, writing at most the
cache entry (first conjunct); but the Recommendation Orchestrator's startup
(`lifespan` calls `get_milvus_connection`, which drops and re-creates the
Milvus collection) erases every SimilarityEntry: at a store state holding
one vector entry, startup empties the vector store. -/
theorem C1_sole_writer_violated_at_startup :
    (∀ (env : ApiEnv) (s : Stores) (uid : String),
      (get_recommendations env s uid).2.1.doc = s.doc ∧
      (get_recommendations env s uid).2.1.vec = s.vec ∧
      (get_recommendations env s uid).2.1.graph = s.graph ∧
      (get_recommendations env s uid).2.1.analytics = s.analytics) ∧
    storesWithVec.vec ≠ [] ∧ (lifespanStartup storesWithVec).vec = [] := by
  refine ⟨fun env s uid => ?_, ?_, rfl⟩
  · obtain ⟨c, hc⟩ := get_recommendations_cache_only env s uid
    rw [hc]
    exact ⟨rfl, rfl, rfl, rfl⟩
  · simp [storesWithVec]

/-- C2 is false on the code: for the concrete one-record batch below, the
vector store's delete-all (the Milvus collection drop performed while
`load_to_dbs` acquires its connection) occurs in the load trace strictly
before the document store's delete-all. -/
theorem C2_counterexample :
    ([convoA] : List Conversation) ≠ [] ∧
    (load_to_dbs [convoA] emptyStores).2.findIdx isClearVec <
      (load_to_dbs [convoA] emptyStores).2.findIdx isClearDoc :=
  ⟨by decide, by decide⟩

/-- C2 amended: for every non-empty batch of valid embedded records the
load stage performs exactly the four clear-then-insert operations, each
store's delete-all preceding its insert and the inserts in the fixed order
document, vector, graph, analytics; however the vector store's delete-all
comes first of all (it happens while the Milvus connection is acquired),
hence before — not after — the document store's delete-all. -/
theorem C2_load_order (data : List Conversation) (s : Stores)
    (h : data ≠ []) :
    (load_to_dbs data s).2 =
      [.clearVec, .clearDoc, .insertDoc (mongoDocs data),
       .insertVec (milvusEntries data), .clearGraph, .insertGraph data,
       .clearAnalytics, .insertAnalytics (analyticsAggregate data)] ∧
    (load_to_dbs data s).2.findIdx isClearVec <
      (load_to_dbs data s).2.findIdx isClearDoc := by
  refine ⟨rfl, ?_⟩
  show (0 : Nat) < 1
  exact Nat.zero_lt_one

/-- C2 amended claim, applied to a concrete one-record batch over populated
stores. -/
theorem C2_load_order_witness :
    ([convoA] : List Conversation) ≠ [] ∧
    (load_to_dbs [convoA] storesWithVec).2.findIdx isClearVec <
      (load_to_dbs [convoA] storesWithVec).2.findIdx isClearDoc :=
  ⟨by decide, (C2_load_order [convoA] storesWithVec (by decide)).2⟩

/-- C3: an unreadable input source, an empty input batch, or a batch from
which no record survives validation and embedding makes the pipeline halt
with no store mutation: the stores come back unchanged and the trace of
store operations is empty. -/
theorem C3_halt_no_mutation (embed : String → Vec)
    (raw : Option (List RawRecord)) (s : Stores)
    (h : raw = none ∨ raw = some [] ∨
      ∃ data, raw = some data ∧ transform_and_validate embed data = []) :
    main_data_pipeline embed raw s = (s, []) := by
  rcases h with rfl | rfl | ⟨data, rfl, ht⟩
  · rfl
  · rfl
  · unfold main_data_pipeline
    by_cases hd : data = []
    · simp [hd]
    · simp [hd, ht]

/-- C3 applied to a concrete batch whose single record fails validation,
over populated stores. -/
theorem C3_witness :
    (some [rawBad] = none ∨ some [rawBad] = some [] ∨
      ∃ data, some [rawBad] = some data ∧
        transform_and_validate embedLen data = []) ∧
    main_data_pipeline embedLen (some [rawBad]) storesWithVec
      = (storesWithVec, []) :=
  ⟨Or.inr (Or.inr ⟨[rawBad], rfl, by decide⟩),
   C3_halt_no_mutation embedLen (some [rawBad]) storesWithVec
     (Or.inr (Or.inr ⟨[rawBad], rfl, by decide⟩))⟩

/-- C4: after a successful run the analytics store has a row for a
(user_id, campaign_id) pair exactly when some surviving record carries that
pair, and every such row's engagement_count is the number of surviving
records sharing the pair (so pairs with zero records have no row). -/
theorem C4_analytics_counts (embed : String → Vec) (data : List RawRecord)
    (s : Stores) (h : transform_and_validate embed data ≠ [])
    (u c : String) :
    ((∃ n, (⟨u, c, n⟩ : AnalyticsRow) ∈
        (main_data_pipeline embed (some data) s).1.analytics) ↔
      0 < countPair (transform_and_validate embed data) u c) ∧
    ∀ n, (⟨u, c, n⟩ : AnalyticsRow) ∈
        (main_data_pipeline embed (some data) s).1.analytics →
      n = countPair (transform_and_validate embed data) u c := by
  have hdata : data ≠ [] := by
    intro hd
    apply h
    rw [hd]
    rfl
  have hfin : (main_data_pipeline embed (some data) s).1.analytics
      = analyticsAggregate (transform_and_validate embed data) := by
    unfold main_data_pipeline
    simp [hdata, h, load_fields]
  rw [hfin]
  refine ⟨⟨?_, ?_⟩, ?_⟩
  · rintro ⟨n, hn⟩
    exact mem_pairsOf.mp (mem_analyticsAggregate.mp hn).1
  · intro hpos
    exact ⟨countPair (transform_and_validate embed data) u c,
      mem_analyticsAggregate.mpr ⟨mem_pairsOf.mpr hpos, rfl⟩⟩
  · intro n hn
    exact (mem_analyticsAggregate.mp hn).2

/-- C4 applied to the spec's scenario batch: two records from userA for
campX and one from userB for campX. -/
theorem C4_witness :
    (transform_and_validate embedLen [rawA, rawA2, rawB] ≠ []) ∧
    ((∃ n, (⟨"userA", "campX", n⟩ : AnalyticsRow) ∈
        (main_data_pipeline embedLen (some [rawA, rawA2, rawB])
          emptyStores).1.analytics) ↔
      0 < countPair (transform_and_validate embedLen [rawA, rawA2, rawB])
        "userA" "campX") :=
  ⟨by decide,
   (C4_analytics_counts embedLen [rawA, rawA2, rawB] emptyStores
     (by decide) "userA" "campX").1⟩

/-- C5: running the Ingestion Pipeline twice in succession on the same
input leaves the four persistent stores exactly as a single run does. -/
theorem C5_idempotent (embed : String → Vec) (raw : Option (List RawRecord))
    (s : Stores) :
    ((main_data_pipeline embed raw (main_data_pipeline embed raw s).1).1.doc
        = (main_data_pipeline embed raw s).1.doc) ∧
    ((main_data_pipeline embed raw (main_data_pipeline embed raw s).1).1.vec
        = (main_data_pipeline embed raw s).1.vec) ∧
    ((main_data_pipeline embed raw (main_data_pipeline embed raw s).1).1.graph
        = (main_data_pipeline embed raw s).1.graph) ∧
    ((main_data_pipeline embed raw (main_data_pipeline embed raw s).1).1.analytics
        = (main_data_pipeline embed raw s).1.analytics) := by
  rcases raw with _ | data
  · exact ⟨rfl, rfl, rfl, rfl⟩
  · by_cases hd : data = []
    · subst hd
      exact ⟨rfl, rfl, rfl, rfl⟩
    · by_cases ht : transform_and_validate embed data = []
      · unfold main_data_pipeline
        simp [hd, ht]
      · unfold main_data_pipeline
        simp [hd, ht, load_fields]

/-- C6 is false as stated for a user_id absent from the document store:
with the cache store failing, the request for u1 against empty stores
yields the 404 not-found signal, not a well-formed response with
retrieval_source "computed". -/
theorem C6_counterexample :
    (get_recommendations ⟨embedLen, true⟩ emptyStores "u1").1
      = .notFound "u1" := rfl

/-- C6 amended: for every user_id that has a document-store record whose
message embeds to a non-empty vector, a failing cache store is harmless:
the read failure is treated as a miss and retrieval proceeds, the write
failure after ranking is swallowed (stores returned unchanged), and the
caller gets a well-formed response with retrieval_source "computed" — the
cache-store error never propagates. -/
theorem C6_cache_failure_swallowed (embed : String → Vec) (s : Stores)
    (uid : String) (r : Conversation) (hr : find_one s.doc uid = some r)
    (he : embed r.message ≠ []) :
    ∃ recs tr, get_recommendations ⟨embed, true⟩ s uid
      = (.ok ⟨uid, recs, "computed"⟩, s, tr) := by
  rw [get_recommendations_fail ⟨embed, true⟩ s uid rfl]
  by_cases hs : search_similar_users s.vec (embed r.message) 5 = []
  · exact ⟨[], [.cacheRead, .docRead, .vecSearch],
      computeRecs_no_sims ⟨embed, true⟩ s uid r hr he hs⟩
  · by_cases hc : fetch_campaigns_for_users s.graph
        (search_similar_users s.vec (embed r.message) 5) = []
    · exact ⟨[], [.cacheRead, .docRead, .vecSearch, .graphQuery],
        computeRecs_no_cids ⟨embed, true⟩ s uid r hr he hs hc⟩
    · refine ⟨(rank_campaigns_by_engagement s.analytics
          (fetch_campaigns_for_users s.graph
            (search_similar_users s.vec (embed r.message) 5))).map
          (fun rc => ⟨rc.campaign_id, rc.ranking_score, fixedReason⟩),
        [.cacheRead, .docRead, .vecSearch, .graphQuery,
         .analyticsQuery, .cacheWrite], ?_⟩
      rw [computeRecs_full ⟨embed, true⟩ s uid r hr he hs hc]
      rfl

/-- C6 amended claim applied to concrete stores where userA has a record,
the vector store is empty and the cache store is failing. -/
theorem C6_witness :
    find_one docOnlyStores.doc "userA" = some convoA ∧
    embedLen convoA.message ≠ [] ∧
    ∃ recs tr, get_recommendations ⟨embedLen, true⟩ docOnlyStores "userA"
      = (.ok ⟨"userA", recs, "computed"⟩, docOnlyStores, tr) :=
  ⟨rfl, by decide,
   C6_cache_failure_swallowed embedLen docOnlyStores "userA" convoA rfl
     (by decide)⟩

/-- C7 is false as stated: user u1 has no ConversationRecord in the
document store of `staleCacheStores`, yet the stale cache entry makes
recommend return it with source "cache" instead of signalling not-found. -/
theorem C7_counterexample :
    find_one staleCacheStores.doc "u1" = none ∧
    (get_recommendations ⟨embedLen, false⟩ staleCacheStores "u1").1
      = .ok ⟨"u1", [cachedItem], "cache"⟩ :=
  ⟨rfl, by decide⟩

/-- C7 amended: for every user_id with no ConversationRecord in the
document store, recommend signals not-found whenever the cache holds no
entry for the user or the cache read fails; and in every case the outcome
for such a user is never a response with retrieval_source "computed" (a
stale cache hit is served with source "cache"). -/
theorem C7_absent_user (embed : String → Vec) (rf : Bool) (s : Stores)
    (uid : String) (hd : find_one s.doc uid = none) :
    ((cacheLookup s.cache ("rec:" ++ uid) = none ∨ rf = true) →
      (get_recommendations ⟨embed, rf⟩ s uid).1 = .notFound uid) ∧
    ∀ resp, (get_recommendations ⟨embed, rf⟩ s uid).1 = .ok resp →
      resp.retrieval_source = "cache" := by
  rcases rf with _ | _
  · rcases hc : cacheLookup s.cache ("rec:" ++ uid) with _ | v
    · rw [get_recommendations_miss ⟨embed, false⟩ s uid rfl hc,
          computeRecs_absent ⟨embed, false⟩ s uid hd]
      exact ⟨fun _ => rfl, fun resp hresp => nomatch hresp⟩
    · rw [get_recommendations_hit ⟨embed, false⟩ s uid v rfl hc]
      refine ⟨fun h => ?_, fun resp hresp => ?_⟩
      · rcases h with h | h
        · exact nomatch h
        · exact nomatch h
      · injection hresp with h2
        rw [← h2]
  · rw [get_recommendations_fail ⟨embed, true⟩ s uid rfl,
        computeRecs_absent ⟨embed, true⟩ s uid hd]
    exact ⟨fun _ => rfl, fun resp hresp => nomatch hresp⟩

/-- C7 amended claim applied to the empty stores: an unknown user on a
cache miss is signalled not-found. -/
theorem C7_witness :
    find_one emptyStores.doc "u1" = none ∧
    ((cacheLookup emptyStores.cache ("rec:" ++ "u1") = none ∨ false = true) →
      (get_recommendations ⟨embedLen, false⟩ emptyStores "u1").1
        = .notFound "u1") :=
  ⟨rfl, (C7_absent_user embedLen false emptyStores "u1" rfl).1⟩

/-- C8 is false as stated: userA is present in the document store of
`staleCacheStoresA` and the deduplicated similar-user set is empty (the
vector store is empty), yet the stale cache entry makes recommend return a
non-empty "cache" response instead of the empty "computed" one. -/
theorem C8_counterexample :
    find_one staleCacheStoresA.doc "userA" = some convoA ∧
    search_similar_users staleCacheStoresA.vec (embedLen convoA.message) 5
      = [] ∧
    (get_recommendations ⟨embedLen, false⟩ staleCacheStoresA "userA").1
      ≠ .ok ⟨"userA", [], "computed"⟩ :=
  ⟨rfl, rfl, by decide⟩

/-- C8 amended: for every user_id present in the document store with a
non-empty seed embedding, on a cache miss (no cache entry, or a failing
cache read): if the deduplicated similar-user set is empty, or the set of
campaign ids reachable from it in the graph store is empty, recommend
returns {user_id, [], "computed"}, leaves the stores unchanged, and never
queries the analytics store or writes the cache (nor queries the graph
store when the similar-user set is already empty). -/
theorem C8_empty_short_circuit (embed : String → Vec) (rf : Bool)
    (s : Stores) (uid : String) (r : Conversation)
    (hr : find_one s.doc uid = some r) (he : embed r.message ≠ [])
    (hm : cacheLookup s.cache ("rec:" ++ uid) = none ∨ rf = true)
    (hemp : search_similar_users s.vec (embed r.message) 5 = [] ∨
      fetch_campaigns_for_users s.graph
        (search_similar_users s.vec (embed r.message) 5) = []) :
    (get_recommendations ⟨embed, rf⟩ s uid).1 = .ok ⟨uid, [], "computed"⟩ ∧
    (get_recommendations ⟨embed, rf⟩ s uid).2.1 = s ∧
    Stage.analyticsQuery ∉ (get_recommendations ⟨embed, rf⟩ s uid).2.2 ∧
    Stage.cacheWrite ∉ (get_recommendations ⟨embed, rf⟩ s uid).2.2 ∧
    (search_similar_users s.vec (embed r.message) 5 = [] →
      Stage.graphQuery ∉ (get_recommendations ⟨embed, rf⟩ s uid).2.2) := by
  have hred : get_recommendations ⟨embed, rf⟩ s uid
      = computeRecs ⟨embed, rf⟩ s uid := by
    rcases rf with _ | _
    · rcases hm with hm | hm
      · exact get_recommendations_miss _ s uid rfl hm
      · cases hm
    · exact get_recommendations_fail _ s uid rfl
  rw [hred]
  by_cases hs : search_similar_users s.vec (embed r.message) 5 = []
  · rw [computeRecs_no_sims ⟨embed, rf⟩ s uid r hr he hs]
    refine ⟨rfl, rfl, ?_, ?_, fun _ => ?_⟩
    · show Stage.analyticsQuery ∉ [Stage.cacheRead, Stage.docRead, Stage.vecSearch]
      decide
    · show Stage.cacheWrite ∉ [Stage.cacheRead, Stage.docRead, Stage.vecSearch]
      decide
    · show Stage.graphQuery ∉ [Stage.cacheRead, Stage.docRead, Stage.vecSearch]
      decide
  · rcases hemp with hemp | hemp
    · exact absurd hemp hs
    · rw [computeRecs_no_cids ⟨embed, rf⟩ s uid r hr he hs hemp]
      refine ⟨rfl, rfl, ?_, ?_, fun h => absurd h hs⟩
      · show Stage.analyticsQuery ∉
          [Stage.cacheRead, Stage.docRead, Stage.vecSearch, Stage.graphQuery]
        decide
      · show Stage.cacheWrite ∉
          [Stage.cacheRead, Stage.docRead, Stage.vecSearch, Stage.graphQuery]
        decide

/-- C8 amended claim applied to concrete stores where userA has a record,
the vector store is empty and the cache is cold. -/
theorem C8_witness :
    find_one docOnlyStores.doc "userA" = some convoA ∧
    (get_recommendations ⟨embedLen, false⟩ docOnlyStores "userA").1
      = .ok ⟨"userA", [], "computed"⟩ :=
  ⟨rfl,
   (C8_empty_short_circuit embedLen false docOnlyStores "userA" convoA rfl
     (by decide) (Or.inl rfl) (Or.inl rfl)).1⟩

theorem get_recommendations_computed_shape (env : ApiEnv) (s : Stores)
    (uid : String) (resp : RecResponse)
    (hok : (get_recommendations env s uid).1 = .ok resp)
    (hsrc : resp.retrieval_source = "computed") :
    resp.recommendations = [] ∨
    ∃ cs, resp.recommendations
      = (rank_campaigns_by_engagement s.analytics cs).map
          (fun rc => ⟨rc.campaign_id, rc.ranking_score, fixedReason⟩) := by
  have hred : (get_recommendations env s uid).1 = (computeRecs env s uid).1 ∨
      ∃ v, (get_recommendations env s uid).1 = .ok ⟨uid, v, "cache"⟩ := by
    rcases hrf : env.redisFails with _ | _
    · rcases hc : cacheLookup s.cache ("rec:" ++ uid) with _ | v
      · exact Or.inl (by rw [get_recommendations_miss env s uid hrf hc])
      · exact Or.inr ⟨v, by rw [get_recommendations_hit env s uid v hrf hc]⟩
    · exact Or.inl (by rw [get_recommendations_fail env s uid hrf])
  rcases hred with hred | ⟨v, hv⟩
  · rw [hred] at hok
    rcases hd : find_one s.doc uid with _ | r
    · rw [computeRecs_absent env s uid hd] at hok
      exact nomatch hok
    · by_cases he : env.embed r.message = []
      · rw [computeRecs_empty_embed env s uid r hd he] at hok
        exact nomatch hok
      · by_cases hs : search_similar_users s.vec (env.embed r.message) 5 = []
        · rw [computeRecs_no_sims env s uid r hd he hs] at hok
          injection hok with h1
          exact Or.inl (by rw [← h1])
        · by_cases hc2 : fetch_campaigns_for_users s.graph
              (search_similar_users s.vec (env.embed r.message) 5) = []
          · rw [computeRecs_no_cids env s uid r hd he hs hc2] at hok
            injection hok with h1
            exact Or.inl (by rw [← h1])
          · rw [computeRecs_full env s uid r hd he hs hc2] at hok
            injection hok with h1
            exact Or.inr ⟨_, by rw [← h1]⟩
  · rw [hv] at hok
    injection hok with h1
    rw [← h1] at hsrc
    have hcontra : ("cache" : String) = "computed" := hsrc
    exact absurd hcontra (by decide)

/-- C9: for every non-empty candidate set the ranking query returns rows
ordered descending by the summed engagement_count of each campaign, each
row's score being exactly that sum; and every item of a computed
recommendation list carries the one fixed reason string, the list
inheriting the descending score order. -/
theorem C9_ranked_descending_with_reason (rows : List AnalyticsRow)
    (cids : List String) (h : cids ≠ []) :
    ((rank_campaigns_by_engagement rows cids).Pairwise
        (fun a b => b.ranking_score ≤ a.ranking_score) ∧
      ∀ x ∈ rank_campaigns_by_engagement rows cids,
        x.ranking_score = sumEngagement rows x.campaign_id) ∧
    ∀ (env : ApiEnv) (s : Stores) (uid : String) (resp : RecResponse),
      (get_recommendations env s uid).1 = .ok resp →
      resp.retrieval_source = "computed" →
      (resp.recommendations.Pairwise
          (fun a b => b.ranking_score ≤ a.ranking_score) ∧
        ∀ it ∈ resp.recommendations, it.reason = fixedReason) := by
  refine ⟨⟨rank_sorted rows cids, fun x hx => rank_score_eq hx⟩, ?_⟩
  intro env s uid resp hok hsrc
  rcases get_recommendations_computed_shape env s uid resp hok hsrc
    with hnil | ⟨cs, hcs⟩
  · rw [hnil]
    exact ⟨List.Pairwise.nil, fun it hit => nomatch hit⟩
  · rw [hcs]
    constructor
    · rw [List.pairwise_map]
      exact rank_sorted s.analytics cs
    · intro it hit
      obtain ⟨rc, _, rfl⟩ := List.mem_map.mp hit
      rfl

/-- C9 applied to a concrete candidate set over concrete analytics rows. -/
theorem C9_witness :
    (["campX", "campY"] : List String) ≠ [] ∧
    (rank_campaigns_by_engagement sampleRows ["campX", "campY"]).Pairwise
      (fun a b => b.ranking_score ≤ a.ranking_score) :=
  ⟨by decide,
   ((C9_ranked_descending_with_reason sampleRows ["campX", "campY"]
     (by decide)).1).1⟩

/-- C10: a user with a ConversationRecord whose message embeds to the
empty vector is handled exactly like an absent user: on a cache miss (or a
failing cache read) the request is rejected with the 404 not-found signal,
the stores are untouched, and the similarity search is never reached. -/
theorem C10_empty_embedding_not_found (embed : String → Vec) (rf : Bool)
    (s : Stores) (uid : String) (r : Conversation)
    (hr : find_one s.doc uid = some r) (he : embed r.message = [])
    (hm : cacheLookup s.cache ("rec:" ++ uid) = none ∨ rf = true) :
    get_recommendations ⟨embed, rf⟩ s uid
      = (.notFound uid, s, [.cacheRead, .docRead]) ∧
    Stage.vecSearch ∉ (get_recommendations ⟨embed, rf⟩ s uid).2.2 := by
  have hred : get_recommendations ⟨embed, rf⟩ s uid
      = computeRecs ⟨embed, rf⟩ s uid := by
    rcases rf with _ | _
    · rcases hm with hm | hm
      · exact get_recommendations_miss _ s uid rfl hm
      · cases hm
    · exact get_recommendations_fail _ s uid rfl
  rw [hred, computeRecs_empty_embed ⟨embed, rf⟩ s uid r hr he]
  refine ⟨rfl, ?_⟩
  show Stage.vecSearch ∉ [Stage.cacheRead, Stage.docRead]
  decide

/-- C10 applied to concrete stores where userA has a record whose message
the degenerate model embeds to the empty vector. -/
theorem C10_witness :
    find_one docOnlyStores.doc "userA" = some convoA ∧
    embedNil convoA.message = [] ∧
    get_recommendations ⟨embedNil, false⟩ docOnlyStores "userA"
      = (.notFound "userA", docOnlyStores, [.cacheRead, .docRead]) :=
  ⟨rfl, rfl,
   (C10_empty_embedding_not_found embedNil false docOnlyStores "userA"
     convoA rfl rfl (Or.inl rfl)).1⟩

end TakeHome
